import Mathlib

/-!
# go-discogs: client construction and request dispatch

A shallow embedding of `discogs.go` (package `discogs`): the option validation and header
derivation of `NewClient`, the currency check `currency`, and the status handling of
`request`.

Conventions of the embedding

* A Go `*Options` argument is an `Option Options` (`none` is the nil pointer); the value the
  caller's pointer refers to after the call is returned next to the result.
* The package-level variable `header *http.Header` is threaded explicitly: every function
  that reads or writes it takes the old value and returns the new one.
* A Go result pair `(*Client, error)` in which exactly one component is non-nil is an
  `Except Error Client`.
* Functions of the Go standard library (`http.NewRequest`, `Client.Do`, `ioutil.ReadAll`,
  `json.Unmarshal`, `url.Values.Encode`) and the two service constructors of the package,
  which live in other files, are parameters.
-/

namespace Discogs

/-- The constant `discogsAPI`. -/
def discogsAPI : String := "https://api.discogs.com"

/-- The struct `Options`. -/
structure Options where
  URL : String
  Currency : String
  UserAgent : String
  Token : String
  Key : String
  Secret : String
  deriving DecidableEq, Repr

/-- The struct `Client`; the two service types are declared in other files of the package
and are type parameters here. -/
structure Client (D S : Type) where
  Database : D
  Search : S
  deriving DecidableEq, Repr

/-- Modelled from the spec: the package's error values (`ErrUserAgentInvalid`,
`ErrCurrencyNotSupported`, `ErrCredentialsIncomplete`, `ErrUnauthorized`) are declared in a
file that is not part of the sources at hand. The spec lists them as distinct failures
`UserAgentInvalid`, `CurrencyNotSupported`, `CredentialsIncomplete`, `Unauthorized`, a generic
`UnknownError` carrying the status text, and pass-through transport and decode failures.
`errorf msg` is the value of `fmt.Errorf` whose message is `msg`; `foreign msg` is an error
produced by the standard library. -/
inductive Error where
  | ErrUserAgentInvalid
  | ErrCurrencyNotSupported
  | ErrCredentialsIncomplete
  | ErrUnauthorized
  | errorf (msg : String)
  | foreign (msg : String)
  deriving DecidableEq, Repr

/-- The type `http.Header`, a map from header names to the list of their values, kept as an
association list with one entry per name. -/
structure Header where
  entries : List (String × List String)
  deriving DecidableEq, Repr

/-- The empty header `http.Header{}`. -/
def Header.empty : Header := ⟨[]⟩

/-- Appends `value` to the values stored under `key` in an association list. -/
def addEntry (key value : String) : List (String × List String) → List (String × List String)
  | [] => [(key, [value])]
  | (k, vs) :: rest =>
    if k = key then (k, vs ++ [value]) :: rest else (k, vs) :: addEntry key value rest

/-- The method `Header.Add`: appends `value` to the values of `key`. The two names the
package passes, `User-Agent` and `Authorization`, are already in canonical MIME form, so the
canonicalisation of the name done by the library is the identity on them. -/
def Header.Add (h : Header) (key value : String) : Header :=
  ⟨addEntry key value h.entries⟩

/-- The method `Header.Values`: all values stored under `key`, empty when there is none. -/
def Header.Values (h : Header) (key : String) : List String :=
  match h.entries.find? (fun e => e.1 = key) with
  | some e => e.2
  | none => []

/-- The function `currency`: validates the currency for marketplace data. -/
def currency (c : String) : Except Error String :=
  match c with
  | "USD" | "GBP" | "EUR" | "CAD" | "AUD" | "JPY" | "CHF" | "MXN" | "BRL" | "NZD" | "SEK"
  | "ZAR" => .ok c
  | "" => .ok "USD"
  | _ => .error .ErrCurrencyNotSupported

/-- What a call of `NewClient` leaves behind: the returned pair, the package-level `header`
and the value behind the caller's `*Options`. -/
structure NewClientResult (D S : Type) where
  ret : Except Error (Client D S)
  header : Option Header
  o : Option Options

/-- The function `NewClient`. `newDatabaseService` and `newSearchService` are the service
constructors of the package; `_header` is the package-level `header` before the call. -/
def NewClient {D S : Type} (newDatabaseService : String → String → D)
    (newSearchService : String → S) (_header : Option Header) (o : Option Options) :
    NewClientResult D S :=
  let header : Header := Header.empty
  match o with
  | none => ⟨.error .ErrUserAgentInvalid, some header, none⟩
  | some o =>
    if o.UserAgent = "" then ⟨.error .ErrUserAgentInvalid, some header, some o⟩
    else
      let header := header.Add "User-Agent" o.UserAgent
      match currency o.Currency with
      | .error err => ⟨.error err, some header, some o⟩
      | .ok cur =>
        -- if api key is present, secret must be present too (and vice versa)
        if (decide (o.Key = "")) != (decide (o.Secret = "")) then
          ⟨.error .ErrCredentialsIncomplete, some header, some o⟩
        else
          -- set token, it is required for some queries like search
          let header :=
            if o.Token ≠ "" then header.Add "Authorization" ("Discogs token=" ++ o.Token)
            else if o.Key ≠ "" ∧ o.Secret ≠ "" then
              header.Add "Authorization" ("Discogs key=" ++ o.Key ++ ", secret=" ++ o.Secret)
            else header
          let o := if o.URL = "" then { o with URL := discogsAPI } else o
          ⟨.ok { Database := newDatabaseService o.URL cur,
                 Search := newSearchService (o.URL ++ "/database/search") },
            some header, some o⟩

/-- The constant `http.StatusOK`. -/
def StatusOK : Int := 200

/-- The constant `http.StatusUnauthorized`. -/
def StatusUnauthorized : Int := 401

/-- The part of `http.Request` the package touches. -/
structure Request where
  Method : String
  URL : String
  Header : Header
  deriving DecidableEq, Repr

/-- The part of `http.Response` the package reads; `B` is the type of the body stream. -/
structure Response (B : Type) where
  StatusCode : Int
  Status : String
  Body : B

/-- The standard-library operations `request` calls. `Unmarshal` returns the target after
decoding together with the error, since decoding writes through the target pointer. -/
structure Library (P B T : Type) where
  Encode : P → String
  NewRequest : String → String → Except Error Request
  Do : Request → Except Error (Response B)
  ReadAll : B → Except Error (List Nat)
  Unmarshal : List Nat → T → T × Option Error

/-- The observable steps of one `request` call, in the order they happen. -/
inductive Effect where
  | send (r : Request)
  | readBody
  | decode
  | closeBody
  deriving DecidableEq, Repr

/-- What a call of `request` leaves behind: the returned error (`none` is nil), the value of
the caller's output target and the steps performed. -/
structure RequestResult (T : Type) where
  err : Option Error
  resp : T
  effects : List Effect

/-- The function `request`. `header` is the package-level `header`; the result is `none`
when the call stops with a nil-pointer dereference at `*header`. The deferred
`response.Body.Close()` is the last step of every path that obtained a response. -/
def request {P B T : Type} (lib : Library P B T) (header : Option Header) (path : String)
    (params : P) (resp : T) : Option (RequestResult T) :=
  match lib.NewRequest "GET" (path ++ "?" ++ lib.Encode params) with
  | .error err => some ⟨some err, resp, []⟩
  | .ok r =>
    match header with
    | none => none
    | some h =>
      let r : Request := { r with Header := h }
      match lib.Do r with
      | .error err => some ⟨some err, resp, [.send r]⟩
      | .ok response =>
        if response.StatusCode ≠ StatusOK then
          if response.StatusCode = StatusUnauthorized then
            some ⟨some .ErrUnauthorized, resp, [.send r, .closeBody]⟩
          else
            some ⟨some (.errorf ("unknown error: " ++ response.Status)), resp,
              [.send r, .closeBody]⟩
        else
          match lib.ReadAll response.Body with
          | .error err => some ⟨some err, resp, [.send r, .readBody, .closeBody]⟩
          | .ok body =>
            let out := lib.Unmarshal body resp
            some ⟨out.2, out.1, [.send r, .readBody, .decode, .closeBody]⟩

/-- The twelve currency codes `currency` accepts. -/
def supportedCurrencies : List String :=
  ["USD", "GBP", "EUR", "CAD", "AUD", "JPY", "CHF", "MXN", "BRL", "NZD", "SEK", "ZAR"]

/-- A library whose server answers every request with status 500 and whose decoder would
overwrite the target with 1. -/
def lib500 : Library Unit Unit Nat where
  Encode := fun _ => "q=x"
  NewRequest := fun m u => .ok ⟨m, u, Header.empty⟩
  Do := fun _ => .ok ⟨500, "500 Internal Server Error", ()⟩
  ReadAll := fun _ => .ok []
  Unmarshal := fun _ _ => (1, none)

theorem currency_supported (c : String) (h : c ∈ supportedCurrencies) : currency c = .ok c := by
  simp [supportedCurrencies] at h
  rcases h with h | h | h | h | h | h | h | h | h | h | h | h <;> subst h <;> rfl

theorem currency_empty : currency "" = .ok "USD" := rfl

theorem currency_unsupported (c : String) (h0 : c ≠ "") (h : c ∉ supportedCurrencies) :
    currency c = .error .ErrCurrencyNotSupported := by
  simp [supportedCurrencies] at h
  unfold currency
  split <;> simp_all

/-- The three ways `currency` can go, by the shape of its argument. -/
theorem currency_cases (c : String) :
    (c ∈ supportedCurrencies ∧ c ≠ "" ∧ currency c = .ok c) ∨
    (c = "" ∧ c ∉ supportedCurrencies ∧ currency c = .ok "USD") ∨
    (c ≠ "" ∧ c ∉ supportedCurrencies ∧ currency c = .error .ErrCurrencyNotSupported) := by
  by_cases hs : c ∈ supportedCurrencies
  · refine Or.inl ⟨hs, ?_, currency_supported c hs⟩
    rintro rfl
    simp [supportedCurrencies] at hs
  · by_cases h0 : c = ""
    · subst h0
      exact Or.inr (Or.inl ⟨rfl, hs, rfl⟩)
    · exact Or.inr (Or.inr ⟨h0, hs, currency_unsupported c h0 hs⟩)

/-- C1: when the options are nil or the user agent is empty, `NewClient` returns the error
`ErrUserAgentInvalid` (and no client), whatever the other fields hold. -/
theorem NewClient_userAgentInvalid {D S : Type} (nd : String → String → D) (ns : String → S)
    (prev : Option Header) (o : Option Options)
    (h : o = none ∨ ∃ x, o = some x ∧ x.UserAgent = "") :
    (NewClient nd ns prev o).ret = .error .ErrUserAgentInvalid := by
  rcases h with rfl | ⟨x, rfl, hx⟩
  · rfl
  · simp [NewClient, hx]

theorem NewClient_userAgentInvalid_witness :
    (NewClient (fun b c => (b, c)) id none none).ret = .error .ErrUserAgentInvalid ∧
    (NewClient (fun b c => (b, c)) id none
      (some ⟨"http://x", "ZZZ", "", "t", "k", ""⟩)).ret = .error .ErrUserAgentInvalid :=
  ⟨NewClient_userAgentInvalid _ _ _ _ (Or.inl rfl),
   NewClient_userAgentInvalid _ _ _ _ (Or.inr ⟨_, rfl, rfl⟩)⟩

/-- C2: for non-nil options with a non-empty user agent, `NewClient` fails with
`ErrCurrencyNotSupported` exactly when the currency is non-empty and not one of the twelve
supported codes, whatever token, key, secret and URL are. -/
theorem NewClient_currencyNotSupported_iff {D S : Type} (nd : String → String → D)
    (ns : String → S) (prev : Option Header) (o : Options) (hua : o.UserAgent ≠ "") :
    (NewClient nd ns prev (some o)).ret = .error .ErrCurrencyNotSupported ↔
      (o.Currency ≠ "" ∧
        o.Currency ∉ ["USD", "GBP", "EUR", "CAD", "AUD", "JPY", "CHF", "MXN", "BRL", "NZD",
          "SEK", "ZAR"]) := by
  change _ ↔ (o.Currency ≠ "" ∧ o.Currency ∉ supportedCurrencies)
  rcases currency_cases o.Currency with ⟨hs, h0, hc⟩ | ⟨h0, hs, hc⟩ | ⟨h0, hs, hc⟩
  · simp only [NewClient, hua, hc, if_false]
    split <;> simp [hs]
  · simp only [NewClient, hua, hc, if_false]
    split <;> simp [h0]
  · simp [NewClient, hua, hc, h0, hs]

theorem NewClient_currencyNotSupported_iff_witness :
    (NewClient (fun b c => (b, c)) id none
        (some ⟨"", "usd", "ua", "t", "k", "s"⟩)).ret = .error .ErrCurrencyNotSupported ∧
    (NewClient (fun b c => (b, c)) id none
        (some ⟨"", "", "ua", "t", "k", ""⟩)).ret ≠ .error .ErrCurrencyNotSupported :=
  ⟨(NewClient_currencyNotSupported_iff _ _ _ ⟨"", "usd", "ua", "t", "k", "s"⟩
      (by decide)).mpr (by decide),
   fun h => ((NewClient_currencyNotSupported_iff _ _ _ ⟨"", "", "ua", "t", "k", ""⟩
      (by decide)).mp h).1 rfl⟩

/-- C3 as stated fails: with a non-empty user agent, the unsupported currency `XXX`, the key
`k` and no secret, exactly one of key and secret is present, yet `NewClient` fails with
`ErrCurrencyNotSupported`, not with `ErrCredentialsIncomplete`. -/
theorem NewClient_credentialsIncomplete_counterexample :
    (⟨"", "XXX", "ua", "", "k", ""⟩ : Options).UserAgent ≠ "" ∧
    ((⟨"", "XXX", "ua", "", "k", ""⟩ : Options).Key ≠ "" ∧
      (⟨"", "XXX", "ua", "", "k", ""⟩ : Options).Secret = "") ∧
    (NewClient (fun b c => (b, c)) id none (some ⟨"", "XXX", "ua", "", "k", ""⟩)).ret
      = .error .ErrCurrencyNotSupported ∧
    (NewClient (fun b c => (b, c)) id none (some ⟨"", "XXX", "ua", "", "k", ""⟩)).ret
      ≠ .error .ErrCredentialsIncomplete := by
  have h : (NewClient (fun b c => (b, c)) id none
      (some ⟨"", "XXX", "ua", "", "k", ""⟩)).ret = .error .ErrCurrencyNotSupported := rfl
  refine ⟨by decide, ⟨by decide, rfl⟩, h, ?_⟩
  rw [h]
  intro hne
  cases hne

/-- C3, amended: when exactly one of key and secret is non-empty, `NewClient` fails with
`ErrUserAgentInvalid` if the user agent is empty, with `ErrCurrencyNotSupported` if the user
agent is non-empty and the currency is non-empty and unsupported, and with
`ErrCredentialsIncomplete` if the user agent is non-empty and the currency is empty or
supported: the key/secret check comes after both the user-agent and the currency check. -/
theorem NewClient_credentialsIncomplete {D S : Type} (nd : String → String → D)
    (ns : String → S) (prev : Option Header) (o : Options)
    (hx : (o.Key ≠ "" ∧ o.Secret = "") ∨ (o.Key = "" ∧ o.Secret ≠ "")) :
    (o.UserAgent = "" → (NewClient nd ns prev (some o)).ret = .error .ErrUserAgentInvalid) ∧
    (o.UserAgent ≠ "" → o.Currency ≠ "" → o.Currency ∉ supportedCurrencies →
      (NewClient nd ns prev (some o)).ret = .error .ErrCurrencyNotSupported) ∧
    (o.UserAgent ≠ "" → o.Currency = "" ∨ o.Currency ∈ supportedCurrencies →
      (NewClient nd ns prev (some o)).ret = .error .ErrCredentialsIncomplete) := by
  refine ⟨fun hua => by simp [NewClient, hua], fun hua h0 hs => ?_, fun hua hcur => ?_⟩
  · simp [NewClient, hua, currency_unsupported _ h0 hs]
  · have hc : ∃ cur, currency o.Currency = .ok cur := by
      rcases hcur with h | h
      · exact ⟨"USD", by rw [h]; rfl⟩
      · exact ⟨_, currency_supported _ h⟩
    obtain ⟨cur, hc⟩ := hc
    rcases hx with ⟨hk, hs⟩ | ⟨hk, hs⟩ <;> simp [NewClient, hua, hc, hk, hs]

theorem NewClient_credentialsIncomplete_witness :
    (NewClient (fun b c => (b, c)) id none (some ⟨"", "EUR", "ua", "t", "", "s"⟩)).ret
      = .error .ErrCredentialsIncomplete :=
  (NewClient_credentialsIncomplete _ _ _ ⟨"", "EUR", "ua", "t", "", "s"⟩
    (Or.inr (by decide))).2.2 (by decide) (Or.inr (by decide))

/-- The value `currency` returns when it accepts its argument. -/
theorem currency_ok_of_valid (c : String) (h : c = "" ∨ c ∈ supportedCurrencies) :
    currency c = .ok (if c = "" then "USD" else c) := by
  rcases currency_cases c with ⟨_, h0, hc⟩ | ⟨h0, _, hc⟩ | ⟨h0, hs, _⟩
  · simpa [h0] using hc
  · simpa [h0] using hc
  · rcases h with h | h
    · exact absurd h h0
    · exact absurd h hs

/-- C4: with a non-empty user agent, a supported or empty currency, key and secret both empty
or both non-empty, and a non-empty token, `NewClient` succeeds and the header holds the user
agent and exactly one `Authorization` value, `Discogs token=` followed by the token. -/
theorem NewClient_token {D S : Type} (nd : String → String → D) (ns : String → S)
    (prev : Option Header) (o : Options) (hua : o.UserAgent ≠ "")
    (hcur : o.Currency = "" ∨ o.Currency ∈ supportedCurrencies)
    (hks : (o.Key = "" ∧ o.Secret = "") ∨ (o.Key ≠ "" ∧ o.Secret ≠ ""))
    (ht : o.Token ≠ "") :
    (∃ c, (NewClient nd ns prev (some o)).ret = .ok c) ∧
    (NewClient nd ns prev (some o)).header =
      some ⟨[("User-Agent", [o.UserAgent]), ("Authorization", ["Discogs token=" ++ o.Token])]⟩ ∧
    (∃ h, (NewClient nd ns prev (some o)).header = some h ∧
      h.Values "Authorization" = ["Discogs token=" ++ o.Token]) := by
  have hc := currency_ok_of_valid _ hcur
  have hh : (NewClient nd ns prev (some o)).header =
      some ⟨[("User-Agent", [o.UserAgent]),
        ("Authorization", ["Discogs token=" ++ o.Token])]⟩ := by
    rcases hks with ⟨hk, hs⟩ | ⟨hk, hs⟩ <;>
      simp [NewClient, hua, hc, hk, hs, ht, Header.Add, Header.empty, addEntry]
  refine ⟨?_, hh, ⟨_, hh, ?_⟩⟩
  · rcases hks with ⟨hk, hs⟩ | ⟨hk, hs⟩ <;> simp [NewClient, hua, hc, hk, hs]
  · simp [Header.Values, List.find?]

theorem NewClient_token_witness :
    (∃ c, (NewClient (fun b c => (b, c)) id none
      (some ⟨"", "", "ua", "abc123", "k", "s"⟩)).ret = .ok c) ∧
    (NewClient (fun b c => (b, c)) id none (some ⟨"", "", "ua", "abc123", "k", "s"⟩)).header =
      some ⟨[("User-Agent", ["ua"]), ("Authorization", ["Discogs token=abc123"])]⟩ ∧
    (∃ h, (NewClient (fun b c => (b, c)) id none
      (some ⟨"", "", "ua", "abc123", "k", "s"⟩)).header = some h ∧
      h.Values "Authorization" = ["Discogs token=abc123"]) :=
  NewClient_token _ _ _ ⟨"", "", "ua", "abc123", "k", "s"⟩ (by decide) (Or.inl rfl)
    (Or.inr (by decide)) (by decide)

/-- C5: with a non-empty user agent, a supported or empty currency, an empty token and
non-empty key and secret, `NewClient` succeeds and the header holds the user agent and
exactly one `Authorization` value, `Discogs key=<key>, secret=<secret>`. -/
theorem NewClient_keySecret {D S : Type} (nd : String → String → D) (ns : String → S)
    (prev : Option Header) (o : Options) (hua : o.UserAgent ≠ "")
    (hcur : o.Currency = "" ∨ o.Currency ∈ supportedCurrencies)
    (ht : o.Token = "") (hk : o.Key ≠ "") (hs : o.Secret ≠ "") :
    (∃ c, (NewClient nd ns prev (some o)).ret = .ok c) ∧
    (NewClient nd ns prev (some o)).header =
      some ⟨[("User-Agent", [o.UserAgent]),
        ("Authorization", ["Discogs key=" ++ o.Key ++ ", secret=" ++ o.Secret])]⟩ ∧
    (∃ h, (NewClient nd ns prev (some o)).header = some h ∧
      h.Values "Authorization" = ["Discogs key=" ++ o.Key ++ ", secret=" ++ o.Secret]) := by
  have hc := currency_ok_of_valid _ hcur
  have hh : (NewClient nd ns prev (some o)).header =
      some ⟨[("User-Agent", [o.UserAgent]),
        ("Authorization", ["Discogs key=" ++ o.Key ++ ", secret=" ++ o.Secret])]⟩ := by
    simp [NewClient, hua, hc, hk, hs, ht, Header.Add, Header.empty, addEntry]
  refine ⟨?_, hh, ⟨_, hh, ?_⟩⟩
  · simp [NewClient, hua, hc, hk, hs]
  · simp [Header.Values, List.find?]

theorem NewClient_keySecret_witness :
    (∃ c, (NewClient (fun b c => (b, c)) id none
      (some ⟨"", "GBP", "ua", "", "k", "s"⟩)).ret = .ok c) ∧
    (NewClient (fun b c => (b, c)) id none (some ⟨"", "GBP", "ua", "", "k", "s"⟩)).header =
      some ⟨[("User-Agent", ["ua"]), ("Authorization", ["Discogs key=k, secret=s"])]⟩ ∧
    (∃ h, (NewClient (fun b c => (b, c)) id none
      (some ⟨"", "GBP", "ua", "", "k", "s"⟩)).header = some h ∧
      h.Values "Authorization" = ["Discogs key=k, secret=s"]) :=
  NewClient_keySecret _ _ _ ⟨"", "GBP", "ua", "", "k", "s"⟩ (by decide)
    (Or.inr (by decide)) rfl (by decide) (by decide)

/-- C6: with a non-empty user agent, a supported or empty currency, and token, key and secret
all empty, `NewClient` succeeds and the header has the single entry `User-Agent` with the
single value `o.UserAgent`; it has no `Authorization` value. -/
theorem NewClient_anonymous {D S : Type} (nd : String → String → D) (ns : String → S)
    (prev : Option Header) (o : Options) (hua : o.UserAgent ≠ "")
    (hcur : o.Currency = "" ∨ o.Currency ∈ supportedCurrencies)
    (ht : o.Token = "") (hk : o.Key = "") (hs : o.Secret = "") :
    (∃ c, (NewClient nd ns prev (some o)).ret = .ok c) ∧
    (NewClient nd ns prev (some o)).header = some ⟨[("User-Agent", [o.UserAgent])]⟩ ∧
    (∃ h, (NewClient nd ns prev (some o)).header = some h ∧
      h.Values "Authorization" = [] ∧ ∀ e ∈ h.entries, e.1 ≠ "Authorization") := by
  have hc := currency_ok_of_valid _ hcur
  have hh : (NewClient nd ns prev (some o)).header = some ⟨[("User-Agent", [o.UserAgent])]⟩ := by
    simp [NewClient, hua, hc, hk, hs, ht, Header.Add, Header.empty, addEntry]
  refine ⟨?_, hh, ⟨_, hh, ?_, ?_⟩⟩
  · simp [NewClient, hua, hc, hk, hs]
  · simp [Header.Values, List.find?]
  · simp

theorem NewClient_anonymous_witness :
    (∃ c, (NewClient (fun b c => (b, c)) id none
      (some ⟨"", "JPY", "ua", "", "", ""⟩)).ret = .ok c) ∧
    (NewClient (fun b c => (b, c)) id none (some ⟨"", "JPY", "ua", "", "", ""⟩)).header =
      some ⟨[("User-Agent", ["ua"])]⟩ ∧
    (∃ h, (NewClient (fun b c => (b, c)) id none
      (some ⟨"", "JPY", "ua", "", "", ""⟩)).header = some h ∧
      h.Values "Authorization" = [] ∧ ∀ e ∈ h.entries, e.1 ≠ "Authorization") :=
  NewClient_anonymous _ _ _ ⟨"", "JPY", "ua", "", "", ""⟩ (by decide)
    (Or.inr (by decide)) rfl rfl rfl

/-- What a successful call of `NewClient` looks like: the options are non-nil, the currency
is accepted, and the returned client and the options left behind are the defaulted ones. -/
theorem NewClient_ok_inv {D S : Type} (nd : String → String → D) (ns : String → S)
    (prev : Option Header) (o : Option Options) (c : Client D S)
    (h : (NewClient nd ns prev o).ret = .ok c) :
    ∃ x, o = some x ∧ x.UserAgent ≠ "" ∧
      (x.Currency = "" ∨ x.Currency ∈ supportedCurrencies) ∧
      c = ⟨nd (if x.URL = "" then discogsAPI else x.URL) (if x.Currency = "" then "USD" else x.Currency),
          ns ((if x.URL = "" then discogsAPI else x.URL) ++ "/database/search")⟩ ∧
      (NewClient nd ns prev o).o =
        some (if x.URL = "" then { x with URL := discogsAPI } else x) := by
  cases o with
  | none => simp [NewClient] at h
  | some x =>
    by_cases hua : x.UserAgent = ""
    · simp [NewClient, hua] at h
    · rcases currency_cases x.Currency with ⟨hs, h0, hc⟩ | ⟨h0, hs, hc⟩ | ⟨h0, hs, hc⟩
      · refine ⟨x, rfl, hua, Or.inr hs, ?_⟩
        simp only [NewClient, hua, hc, if_false] at h ⊢
        split at h
        · simp at h
        · rename_i hkey
          simp only [Except.ok.injEq] at h
          simp only [hkey, h0, if_false]
          by_cases hu : x.URL = "" <;> simp_all
      · refine ⟨x, rfl, hua, Or.inl h0, ?_⟩
        simp only [NewClient, hua, hc, if_false] at h ⊢
        split at h
        · simp at h
        · rename_i hkey
          simp only [Except.ok.injEq] at h
          simp only [hkey, h0, if_true]
          by_cases hu : x.URL = "" <;> simp_all
      · simp [NewClient, hua, hc] at h

/-- What a failing call of `NewClient` looks like: the options are left as they were, and the
header is empty after `ErrUserAgentInvalid` and holds only the user agent otherwise. -/
theorem NewClient_error_inv {D S : Type} (nd : String → String → D) (ns : String → S)
    (prev : Option Header) (o : Option Options) (e : Error)
    (h : (NewClient nd ns prev o).ret = .error e) :
    (NewClient nd ns prev o).o = o ∧
    ((e = .ErrUserAgentInvalid ∧ (NewClient nd ns prev o).header = some Header.empty) ∨
     ((e = .ErrCurrencyNotSupported ∨ e = .ErrCredentialsIncomplete) ∧
       ∃ x, o = some x ∧ x.UserAgent ≠ "" ∧
        (NewClient nd ns prev o).header = some ⟨[("User-Agent", [x.UserAgent])]⟩)) := by
  cases o with
  | none =>
    simp only [NewClient, Except.error.injEq] at h
    exact ⟨rfl, Or.inl ⟨h.symm, rfl⟩⟩
  | some x =>
    by_cases hua : x.UserAgent = ""
    · simp only [NewClient, hua, if_true, Except.error.injEq] at h
      refine ⟨by simp [NewClient, hua], Or.inl ⟨h.symm, by simp [NewClient, hua]⟩⟩
    · rcases currency_cases x.Currency with ⟨_, _, hc⟩ | ⟨_, _, hc⟩ | ⟨_, _, hc⟩
      · simp only [NewClient, hua, hc, if_false] at h ⊢
        split at h
        · rename_i hkey
          simp only [Except.error.injEq] at h
          simp only [hkey, if_true]
          exact ⟨trivial, Or.inr ⟨Or.inr h.symm, x, rfl, hua, by
            simp [Header.Add, Header.empty, addEntry]⟩⟩
        · simp at h
      · simp only [NewClient, hua, hc, if_false] at h ⊢
        split at h
        · rename_i hkey
          simp only [Except.error.injEq] at h
          simp only [hkey, if_true]
          exact ⟨trivial, Or.inr ⟨Or.inr h.symm, x, rfl, hua, by
            simp [Header.Add, Header.empty, addEntry]⟩⟩
        · simp at h
      · simp only [NewClient, hua, hc, if_false, Except.error.injEq] at h ⊢
        exact ⟨trivial, Or.inr ⟨Or.inl h.symm, x, rfl, hua, by
          simp [Header.Add, Header.empty, addEntry]⟩⟩

/-- C8: when `NewClient` succeeds, the options are non-nil, the Database service is built by
`newDatabaseService b c` and the Search service by `newSearchService (b ++ "/database/search")`,
where `b` is the URL of the options if non-empty and `https://api.discogs.com` otherwise,
and `c` is the currency of the options if non-empty and `USD` otherwise. -/
theorem NewClient_client {D S : Type} (nd : String → String → D) (ns : String → S)
    (prev : Option Header) (o : Option Options) (c : Client D S)
    (h : (NewClient nd ns prev o).ret = .ok c) :
    ∃ x, o = some x ∧
      c.Database = nd (if x.URL = "" then "https://api.discogs.com" else x.URL)
        (if x.Currency = "" then "USD" else x.Currency) ∧
      c.Search = ns ((if x.URL = "" then "https://api.discogs.com" else x.URL)
        ++ "/database/search") := by
  obtain ⟨x, hx, _, _, hc, _⟩ := NewClient_ok_inv nd ns prev o c h
  refine ⟨x, hx, ?_, ?_⟩ <;> rw [hc] <;> rfl

theorem NewClient_client_witness :
    (NewClient (fun b c => (b, c)) id none (some ⟨"", "", "ua", "", "", ""⟩)).ret =
      .ok ⟨("https://api.discogs.com", "USD"), "https://api.discogs.com/database/search"⟩ ∧
    ∃ x, some (⟨"", "", "ua", "", "", ""⟩ : Options) = some x ∧
      (⟨("https://api.discogs.com", "USD"), "https://api.discogs.com/database/search"⟩ :
        Client (String × String) String).Database =
        (fun b c => (b, c)) (if x.URL = "" then "https://api.discogs.com" else x.URL)
          (if x.Currency = "" then "USD" else x.Currency) ∧
      (⟨("https://api.discogs.com", "USD"), "https://api.discogs.com/database/search"⟩ :
        Client (String × String) String).Search =
        id ((if x.URL = "" then "https://api.discogs.com" else x.URL) ++ "/database/search") :=
  ⟨rfl, NewClient_client (fun b c => (b, c)) id none (some ⟨"", "", "ua", "", "", ""⟩) _ rfl⟩

/-- C9: `NewClient` replaces the package-level header on every call, so the header after a
call does not depend on the header before it; after a call failing with
`ErrUserAgentInvalid` the header is empty, and after a call failing with
`ErrCurrencyNotSupported` or `ErrCredentialsIncomplete` it holds only the `User-Agent` entry
of that call's options and no `Authorization` value. -/
theorem NewClient_header {D S : Type} (nd : String → String → D) (ns : String → S)
    (prev₁ prev₂ : Option Header) (o : Option Options) :
    (NewClient nd ns prev₁ o).header = (NewClient nd ns prev₂ o).header ∧
    (∃ h, (NewClient nd ns prev₁ o).header = some h) ∧
    ((NewClient nd ns prev₁ o).ret = .error .ErrUserAgentInvalid →
      (NewClient nd ns prev₁ o).header = some ⟨[]⟩) ∧
    ((NewClient nd ns prev₁ o).ret = .error .ErrCurrencyNotSupported ∨
      (NewClient nd ns prev₁ o).ret = .error .ErrCredentialsIncomplete →
      ∃ x h, o = some x ∧ (NewClient nd ns prev₁ o).header = some h ∧
        h = ⟨[("User-Agent", [x.UserAgent])]⟩ ∧ h.Values "Authorization" = []) := by
  refine ⟨rfl, ?_, fun h => ?_, fun h => ?_⟩
  · unfold NewClient
    simp only
    split
    · exact ⟨_, rfl⟩
    · split
      · exact ⟨_, rfl⟩
      · split
        · exact ⟨_, rfl⟩
        · split <;> exact ⟨_, rfl⟩
  · rcases (NewClient_error_inv nd ns prev₁ o _ h).2 with ⟨_, hh⟩ | ⟨he, _⟩
    · exact hh
    · rcases he with he | he <;> cases he
  · have key : ∀ e, (e = Error.ErrCurrencyNotSupported ∨ e = Error.ErrCredentialsIncomplete) →
        (NewClient nd ns prev₁ o).ret = .error e →
        ∃ x h, o = some x ∧ (NewClient nd ns prev₁ o).header = some h ∧
          h = ⟨[("User-Agent", [x.UserAgent])]⟩ ∧ h.Values "Authorization" = [] := by
      intro e he hr
      rcases (NewClient_error_inv nd ns prev₁ o e hr).2 with ⟨he', _⟩ | ⟨_, x, hx, _, hh⟩
      · subst he'
        rcases he with he | he <;> cases he
      · exact ⟨x, _, hx, hh, rfl, by simp [Header.Values, List.find?]⟩
    rcases h with h | h
    · exact key _ (Or.inl rfl) h
    · exact key _ (Or.inr rfl) h

theorem NewClient_header_witness :
    (NewClient (fun b c => (b, c)) id
        (some ⟨[("User-Agent", ["old"]), ("Authorization", ["Discogs token=old"])]⟩)
        (some ⟨"", "", "ua", "", "k", ""⟩)).ret = .error .ErrCredentialsIncomplete ∧
    ∃ x h, some (⟨"", "", "ua", "", "k", ""⟩ : Options) = some x ∧
      (NewClient (fun b c => (b, c)) id
        (some ⟨[("User-Agent", ["old"]), ("Authorization", ["Discogs token=old"])]⟩)
        (some ⟨"", "", "ua", "", "k", ""⟩)).header = some h ∧
      h = ⟨[("User-Agent", [x.UserAgent])]⟩ ∧ h.Values "Authorization" = [] :=
  ⟨rfl, (NewClient_header (fun b c => (b, c)) id
    (some ⟨[("User-Agent", ["old"]), ("Authorization", ["Discogs token=old"])]⟩) none
    (some ⟨"", "", "ua", "", "k", ""⟩)).2.2.2 (Or.inr rfl)⟩

/-- C10: `NewClient` changes the caller's options only in the URL field and only on success:
when it succeeds the options are non-nil and end up with URL `https://api.discogs.com` if the
URL was empty and unchanged otherwise (all other fields, the currency included, are kept);
whenever it fails the options are exactly as before. -/
theorem NewClient_options {D S : Type} (nd : String → String → D) (ns : String → S)
    (prev : Option Header) (o : Option Options) :
    (∀ c, (NewClient nd ns prev o).ret = .ok c →
      ∃ x, o = some x ∧
        (x.URL = "" → (NewClient nd ns prev o).o =
          some ⟨"https://api.discogs.com", x.Currency, x.UserAgent, x.Token, x.Key, x.Secret⟩) ∧
        (x.URL ≠ "" → (NewClient nd ns prev o).o = some x)) ∧
    (∀ e, (NewClient nd ns prev o).ret = .error e → (NewClient nd ns prev o).o = o) := by
  refine ⟨fun c h => ?_, fun e h => (NewClient_error_inv nd ns prev o e h).1⟩
  obtain ⟨x, hx, _, _, _, ho⟩ := NewClient_ok_inv nd ns prev o c h
  refine ⟨x, hx, fun hu => ?_, fun hu => ?_⟩
  · rw [ho, if_pos hu]; rfl
  · rw [ho, if_neg hu]

theorem NewClient_options_witness :
    (NewClient (fun b c => (b, c)) id none (some ⟨"", "", "ua", "t", "", ""⟩)).o =
      some ⟨"https://api.discogs.com", "", "ua", "t", "", ""⟩ ∧
    (NewClient (fun b c => (b, c)) id none (some ⟨"", "ZZZ", "ua", "t", "", ""⟩)).o =
      some ⟨"", "ZZZ", "ua", "t", "", ""⟩ := by
  refine ⟨?_, (NewClient_options (fun b c => (b, c)) id none
    (some ⟨"", "ZZZ", "ua", "t", "", ""⟩)).2 .ErrCurrencyNotSupported rfl⟩
  obtain ⟨x, hx, h1, _⟩ := (NewClient_options (fun b c => (b, c)) id none
    (some ⟨"", "", "ua", "t", "", ""⟩)).1 _ rfl
  cases hx
  exact h1 rfl

/-- C7: when `request` receives a response whose status code is not 200, it returns
`ErrUnauthorized` if the code is 401 and otherwise an error whose message is
`unknown error: ` followed by the status text of the response; on both paths the body is
neither read nor decoded (the only steps are sending the request and closing the body) and
the caller's output target is unchanged, whatever `ReadAll` and `Unmarshal` would do. -/
theorem request_non200 {P B T : Type} (lib : Library P B T) (h : Header) (path : String)
    (params : P) (resp : T) (r : Request) (response : Response B)
    (hreq : lib.NewRequest "GET" (path ++ "?" ++ lib.Encode params) = .ok r)
    (hdo : lib.Do { r with Header := h } = .ok response)
    (hcode : response.StatusCode ≠ 200) :
    ∃ res, request lib (some h) path params resp = some res ∧
      (response.StatusCode = 401 → res.err = some .ErrUnauthorized) ∧
      (response.StatusCode ≠ 401 →
        res.err = some (.errorf ("unknown error: " ++ response.Status))) ∧
      res.resp = resp ∧
      res.effects = [.send { r with Header := h }, .closeBody] ∧
      Effect.readBody ∉ res.effects ∧ Effect.decode ∉ res.effects := by
  have hne : response.StatusCode ≠ StatusOK := hcode
  by_cases h401 : response.StatusCode = 401
  · have hu : response.StatusCode = StatusUnauthorized := h401
    refine ⟨⟨some .ErrUnauthorized, resp, [.send { r with Header := h }, .closeBody]⟩,
      ?_, fun _ => rfl, fun hn => absurd h401 hn, rfl, rfl, by simp, by simp⟩
    simp only [request, hreq, hdo]
    rw [if_pos hne, if_pos hu]
  · have hu : ¬ response.StatusCode = StatusUnauthorized := h401
    refine ⟨⟨some (.errorf ("unknown error: " ++ response.Status)), resp,
      [.send { r with Header := h }, .closeBody]⟩,
      ?_, fun hy => absurd hy h401, fun _ => rfl, rfl, rfl, by simp, by simp⟩
    simp only [request, hreq, hdo]
    rw [if_pos hne, if_neg hu]

theorem request_non200_witness :
    ∃ res, request lib500 (some ⟨[("User-Agent", ["ua"])]⟩) "http://h/p" () 7 = some res ∧
      res.err = some (.errorf "unknown error: 500 Internal Server Error") ∧ res.resp = 7 ∧
      Effect.readBody ∉ res.effects ∧ Effect.decode ∉ res.effects := by
  obtain ⟨res, h1, _, h3, h4, _, h6, h7⟩ :=
    request_non200 lib500 ⟨[("User-Agent", ["ua"])]⟩ "http://h/p" () 7
      ⟨"GET", "http://h/p?q=x", Header.empty⟩ ⟨500, "500 Internal Server Error", ()⟩
      rfl rfl (by decide)
  exact ⟨res, h1, h3 (by decide), h4, h6, h7⟩

end Discogs
